import Mathlib

/-!
Verification development for the stockfish-evaluator repository.

The subject of this development is the pair of components in
src/engine/EnginePool.js: the EnginePool class (pool manager) and the
StockfishProcess class (single-process protocol driver).  The JavaScript
code is shallowly embedded: the pure parsing and result-construction
functions become Lean functions over lists of characters, and the
event-driven stateful parts (evaluation lifecycle, timers, process
events, pool dispatch) become explicit state-transition functions over
record types, with a settlement log recording every promise resolution
or rejection delivered to a caller.  JavaScript numbers that only ever
hold integer values are modelled as Int (or Nat for object keys), and
nullable fields as Option.
-/

/-- AnalysisLine record as stored in the driver's per-evaluation
accumulator this._multipvResults: a move, the normalized centipawn
evaluation, the optional normalized mate distance, and the principal
variation.  The store guard in the source (if (move && evaluation !==
null)) ensures a stored record always has a move and an evaluation, so
those two fields are non-optional here. -/
structure MoveRec where
  move : String
  evaluation : Int
  mate : Option Int
  pv : List String
deriving DecidableEq

/-- Character class test for the digits 0-9, as used by the regular
expression atom for digit runs. -/
def isDigitChar (c : Char) : Bool := '0' ≤ c && c ≤ '9'

/-- File letter a-h of a chess square, from the pv regular expression. -/
def isFileChar (c : Char) : Bool := 'a' ≤ c && c ≤ 'h'

/-- Rank digit 1-8 of a chess square, from the pv regular expression. -/
def isRankChar (c : Char) : Bool := '1' ≤ c && c ≤ '8'

/-- Promotion piece letter q, r, b or n, from the pv regular expression. -/
def isPromoChar (c : Char) : Bool := c = 'q' || c = 'r' || c = 'b' || c = 'n'

/-- Value of a run of decimal digit characters, most significant first;
models what parseInt(s, 10) computes on a digit string. -/
def natOfDigits (l : List Char) : Nat :=
  l.foldl (fun n c => n * 10 + (c.toNat - 48)) 0

/-- Maximal leading digit run of s interpreted as a number; none when s
does not start with a digit.  Models the regular expression atom for
one-or-more digits followed by parseInt. -/
def parseNatPrefix (s : List Char) : Option Nat :=
  let ds := s.takeWhile isDigitChar
  if ds.isEmpty then none else some (natOfDigits ds)

/-- Optionally signed integer at the start of s; models the regular
expression atom for minus-sign-optional digit run followed by parseInt. -/
def parseIntPrefix : List Char → Option Int
  | '-' :: rest => (parseNatPrefix rest).map (fun n => -(n : Int))
  | s => (parseNatPrefix s).map (fun n => (n : Int))

/-- Leftmost occurrence of the literal lit followed immediately by a
digit run, returning that run's value: the semantics of matching the
regular expression lit(\d+) and taking the captured group. -/
def searchNatAfter (lit : List Char) : List Char → Option Nat
  | [] => none
  | c :: rest =>
    match (if lit.isPrefixOf (c :: rest)
           then parseNatPrefix ((c :: rest).drop lit.length)
           else none) with
    | some v => some v
    | none => searchNatAfter lit rest

/-- Leftmost occurrence of the literal lit followed immediately by an
optionally signed digit run, returning its value: the semantics of
matching the regular expression lit(-?\d+) and taking the captured
group. -/
def searchIntAfter (lit : List Char) : List Char → Option Int
  | [] => none
  | c :: rest =>
    match (if lit.isPrefixOf (c :: rest)
           then parseIntPrefix ((c :: rest).drop lit.length)
           else none) with
    | some v => some v
    | none => searchIntAfter lit rest

/-- One iteration of the pv regular expression group: a coordinate move
square-square, an optional promotion letter, then an optional single
space, all consumed greedily.  Returns the consumed characters and the
remainder. -/
def parseMoveChunk : List Char → Option (List Char × List Char)
  | c1 :: c2 :: c3 :: c4 :: rest =>
    if isFileChar c1 && isRankChar c2 && isFileChar c3 && isRankChar c4 then
      match rest with
      | p :: rest2 =>
        if isPromoChar p then
          match rest2 with
          | ' ' :: rest3 => some ([c1, c2, c3, c4, p, ' '], rest3)
          | _ => some ([c1, c2, c3, c4, p], rest2)
        else if p = ' ' then some ([c1, c2, c3, c4, ' '], rest2)
        else some ([c1, c2, c3, c4], rest)
      | [] => some ([c1, c2, c3, c4], [])
    else none
  | _ => none

/-- Greedy repetition of parseMoveChunk; fuel bounds the recursion and is
always instantiated with the remaining length, which suffices since each
chunk consumes at least four characters. -/
def parsePvChunks : Nat → List Char → List Char
  | 0, _ => []
  | fuel + 1, s =>
    match parseMoveChunk s with
    | none => []
    | some (chunk, rest) => chunk ++ parsePvChunks fuel rest

/-- Attempt to match the pv regular expression at the start of s: the
literal " pv " followed by at least one move chunk; returns the captured
group (the greedily consumed chunks). -/
def tryPvAt (s : List Char) : Option (List Char) :=
  if (" pv ".toList).isPrefixOf s then
    let body := s.drop 4
    match parseMoveChunk body with
    | none => none
    | some (chunk, rest) => some (chunk ++ parsePvChunks rest.length rest)
  else none

/-- Leftmost match of the pv regular expression in the line, returning
the captured group of move tokens. -/
def searchPv : List Char → Option (List Char)
  | [] => none
  | c :: rest =>
    match tryPvAt (c :: rest) with
    | some g => some g
    | none => searchPv rest

/-- Space trimming of both ends, modelling String.prototype.trim on the
captured pv group (whose only whitespace characters are single spaces). -/
def trimSpaces (l : List Char) : List Char :=
  ((l.dropWhile (· = ' ')).reverse.dropWhile (· = ' ')).reverse

/-- Accumulator-passing splitter used by splitSpaces. -/
def splitSpacesAux : List Char → List Char → List String
  | [], cur => if cur.isEmpty then [] else [String.mk cur.reverse]
  | c :: rest, cur =>
    if c = ' ' then
      if cur.isEmpty then splitSpacesAux rest []
      else String.mk cur.reverse :: splitSpacesAux rest []
    else splitSpacesAux rest (c :: cur)

/-- Split on runs of spaces, modelling split on the whitespace regular
expression as applied to the trimmed pv group. -/
def splitSpaces (l : List Char) : List String := splitSpacesAux l []

/-- Substring test, modelling String.prototype.includes. -/
def listContainsSub (pat : List Char) : List Char → Bool
  | [] => pat.isPrefixOf ([] : List Char)
  | c :: rest => pat.isPrefixOf (c :: rest) || listContainsSub pat rest

/-- String-level wrapper of listContainsSub. -/
def strIncludes (s pat : String) : Bool := listContainsSub pat.toList s.toList

/-- Prefix test, modelling String.prototype.startsWith. -/
def strStarts (s pre : String) : Bool := pre.toList.isPrefixOf s.toList

/-- Captured multipv number of an info line: the line matched against the
multipv regular expression, as in StockfishProcess._parseInfoLine. -/
def multipvOf (line : String) : Option Nat :=
  searchNatAfter (" multipv ".toList) line.toList

/-- Captured raw mate distance of an info line, from the score-mate
regular expression in StockfishProcess._parseInfoLine. -/
def mateRawOf (line : String) : Option Int :=
  searchIntAfter ("score mate ".toList) line.toList

/-- Captured raw centipawn score of an info line, from the score-cp
regular expression in StockfishProcess._parseInfoLine. -/
def cpRawOf (line : String) : Option Int :=
  searchIntAfter ("score cp ".toList) line.toList

/-- Principal-variation token list of an info line: the captured pv group
trimmed and split on whitespace, or empty when the pv regular expression
does not match, as in StockfishProcess._parseInfoLine. -/
def pvArrOf (line : String) : List String :=
  match searchPv line.toList with
  | some g => splitSpaces (trimSpaces g)
  | none => []

/-- Lookup in the multipv accumulator, modelling reading a property of
the this._multipvResults object. -/
def getAssoc (k : Nat) : List (Nat × MoveRec) → Option MoveRec
  | [] => none
  | (k2, v) :: rest => if k2 = k then some v else getAssoc k rest

/-- Update of the multipv accumulator, modelling assignment to a property
of the this._multipvResults object (overwrite an existing key, otherwise
add the key). -/
def setAssoc (k : Nat) (v : MoveRec) : List (Nat × MoveRec) → List (Nat × MoveRec)
  | [] => [(k, v)]
  | (k2, v2) :: rest =>
    if k2 = k then (k, v) :: rest else (k2, v2) :: setAssoc k v rest

/-- StockfishProcess._parseInfoLine: extract the multipv rank, the pv
move list and the score from an info line; normalize the score to the
fixed perspective by negating when the side to move is b; map a mate
score to the sentinel evaluation 10000 (positive normalized mate) or
-10000 (otherwise); store the record keyed by rank when both a move and
an evaluation were obtained.  The regular-expression matching of the
source is embedded by the search functions above. -/
def parseInfoLine (side line : String) (acc : List (Nat × MoveRec)) :
    List (Nat × MoveRec) :=
  match multipvOf line with
  | none => acc
  | some n =>
    let pvArr := pvArrOf line
    let move : Option String :=
      match pvArr with
      | [] => none
      | m :: _ => if m = "" then none else some m
    match mateRawOf line with
    | some rawMate =>
      let mate := if side = "b" then -rawMate else rawMate
      let evaluation : Int := if 0 < mate then 10000 else -10000
      match move with
      | some mv => setAssoc n ⟨mv, evaluation, some mate, pvArr⟩ acc
      | none => acc
    | none =>
      match cpRawOf line with
      | some rawEval =>
        let evaluation : Int := if side = "b" then -rawEval else rawEval
        match move with
        | some mv => setAssoc n ⟨mv, evaluation, none, pvArr⟩ acc
        | none => acc
      | none => acc

/-- Result comparator of StockfishProcess._buildResult, transcribed
branch for branch from the JavaScript sort callback (including the
fall-through for non-null mates that are neither both positive nor both
negative nor contain a positive one). -/
def cmpMoves (a b : MoveRec) : Int :=
  match a.mate, b.mate with
  | some am, some bm =>
    if 0 < am && 0 < bm then am - bm
    else if am < 0 && bm < 0 then bm - am
    else if 0 < am then -1
    else if 0 < bm then 1
    else if 0 < am then -1 else 1
  | some am, none => if 0 < am then -1 else 1
  | none, some bm => if 0 < bm then 1 else -1
  | none, none => b.evaluation - a.evaluation

/-- Stable insertion of x into a list sorted by the comparator cmp: x is
placed before the first element y with cmp x y nonpositive, hence after
every earlier element that compares equal. -/
def sortInsert (cmp : α → α → Int) (x : α) : List α → List α
  | [] => [x]
  | y :: ys => if cmp x y ≤ 0 then x :: y :: ys else y :: sortInsert cmp x ys

/-- Stable comparator sort.  Array.prototype.sort is a stable sort
(guaranteed by the language specification, and Node 18 satisfies it); for
a consistent comparator any stable sort produces the same output, so it
is modelled by stable insertion sort. -/
def sortByCmp (cmp : α → α → Int) : List α → List α
  | [] => []
  | x :: xs => sortInsert cmp x (sortByCmp cmp xs)

/-- Ascending numeric comparator used on the accumulator keys. -/
def cmpNatAsc (a b : Nat) : Int := (a : Int) - (b : Int)

/-- EvalResult as resolved to the caller by the driver. -/
structure EvalResult where
  bestMove : Option String
  evaluation : Option Int
  mate : Option Int
  moves : List MoveRec
deriving DecidableEq

/-- First half of StockfishProcess._buildResult: read the accumulator
entries in ascending key order and drop entries whose lookup failed or
whose move is the empty string (the JavaScript filter on truthiness of
the record and its move; the evaluation non-null conjunct always holds
for stored records). -/
def collectRecords (acc : List (Nat × MoveRec)) : List MoveRec :=
  ((sortByCmp cmpNatAsc (acc.map Prod.fst)).map (fun n => getAssoc n acc)).filterMap
    (fun o =>
      match o with
      | some m => if m.move = "" then none else some m
      | none => none)

/-- StockfishProcess._buildResult: collect the accumulator records, sort
them with the comparator, and package the head of the sorted list as the
primary line (all fields null and an empty list when nothing was
collected). -/
def buildResult (acc : List (Nat × MoveRec)) : EvalResult :=
  let moves := sortByCmp cmpMoves (collectRecords acc)
  match moves with
  | [] => ⟨none, none, none, []⟩
  | primary :: _ => ⟨some primary.move, some primary.evaluation, primary.mate, moves⟩

/-- PendingCall: a position, a depth and the identity of the caller whose
promise will be settled (the id stands for the resolve/reject pair held
by the source). -/
structure PendingCall where
  id : Nat
  fen : String
  depth : Int
deriving DecidableEq

/-- Settlement of a caller's promise: resolution with a result or
rejection with an error message (matching the Error messages of the
source). -/
inductive Settle where
  | resolvedResult (r : EvalResult)
  | rejected (msg : String)
deriving DecidableEq

/-- Progress of the init() handshake coroutine of StockfishProcess:
not yet started, awaiting the uciok token, awaiting the readyok token,
completed, or failed with the rejection message of the awaited
_sendAndWait promise. -/
inductive InitPhase where
  | notStarted
  | waitUciok
  | waitReadyok
  | done
  | failed (msg : String)
deriving DecidableEq

/-- State of one StockfishProcess instance.  procExists models _proc
being non-null; ready, busy, pendingQueue, sideToMove and
multipvResults model the fields of the same names; currentId models the
_currentResolve/_currentReject pair (their caller); evalTimer models the
armed _evalTimeout, carrying the caller id captured by the timer
callback's reject closure; initHandler models _initLineHandler together
with the _sendAndWait timer (both are set and cleared together),
carrying the expected token; lineBuffer models _lineBuffer; sent logs
every string written to the process stdin. -/
structure DriverState where
  procExists : Bool
  ready : Bool
  busy : Bool
  pendingQueue : Option PendingCall
  currentId : Option Nat
  evalTimer : Option Nat
  multipvResults : List (Nat × MoveRec)
  sideToMove : String
  lineBuffer : String
  initHandler : Option String
  initPhase : InitPhase
  cfgMultiPV : Nat
  cfgThreads : Nat
  sent : List String
deriving DecidableEq

/-- State produced by the StockfishProcess constructor (before init). -/
def driverNew (multiPV threads : Nat) : DriverState :=
  { procExists := false, ready := false, busy := false,
    pendingQueue := none, currentId := none, evalTimer := none,
    multipvResults := [], sideToMove := "w", lineBuffer := "",
    initHandler := none, initPhase := .notStarted,
    cfgMultiPV := multiPV, cfgThreads := threads, sent := [] }

/-- Synchronous prefix of StockfishProcess.init: spawn the process (the
handle exists even when the executable is missing; the failure arrives
later through the process error event), attach the stream handlers, and
start the first _sendAndWait by writing the uci command and installing
the one-shot line handler for the uciok token.  A no-op when already
ready. -/
def initStart (st : DriverState) : DriverState :=
  if st.ready then st
  else
    { st with
      procExists := true
      initHandler := some "uciok"
      initPhase := .waitUciok
      sent := st.sent ++ ["uci\n"] }

/-- Side-to-move extraction of StockfishProcess._runEvaluate:
fen.split(" ")[1] with "w" as fallback for a missing or empty field. -/
def sideOfFen (fen : String) : String :=
  match (fen.splitOn " ").get? 1 with
  | some t => if t = "" then "w" else t
  | none => "w"

/-- Depth clamp of StockfishProcess._runEvaluate. -/
def cappedDepth (d : Int) : Int := min (max 1 d) 20

/-- StockfishProcess._runEvaluate: mark busy, reset the accumulator,
record the evaluation perspective, install the caller as current, arm
the per-evaluation timer (whose reject closure is the caller's), and
write the reset, position and bounded search commands. -/
def runEvaluate (c : PendingCall) (st : DriverState) : DriverState :=
  { st with
    busy := true
    multipvResults := []
    sideToMove := sideOfFen c.fen
    currentId := some c.id
    evalTimer := some c.id
    sent := st.sent ++
      ["ucinewgame\n", "position fen " ++ c.fen ++ "\n",
       "go depth " ++ toString (cappedDepth c.depth) ++ "\n"] }

/-- Outcome of a call to StockfishProcess.evaluate as seen by its
caller: a synchronous throw of the not-initialized or busy error, an
immediately started run, or a queued call. -/
inductive EvalCallOutcome where
  | threwNotInit
  | threwBusy
  | started
  | queued
deriving DecidableEq

/-- StockfishProcess.evaluate: throw when not ready; when busy, throw
the busy error if the single queue slot is occupied, otherwise occupy
it; when idle, run immediately. -/
def evalCall (c : PendingCall) (st : DriverState) :
    DriverState × EvalCallOutcome :=
  if ¬ st.ready then (st, .threwNotInit)
  else if st.busy then
    match st.pendingQueue with
    | some _ => (st, .threwBusy)
    | none => ({ st with pendingQueue := some c }, .queued)
  else (runEvaluate c st, .started)

/-- StockfishProcess._cleanupEval: clear the timer and the current
resolve/reject pair, reset the accumulator, mark not busy, then drain
the single queue slot by starting the queued call (in the model
_runEvaluate never throws synchronously, so the try/catch of the source
never fires). -/
def cleanupEval (st : DriverState) : DriverState :=
  let st1 :=
    { st with
      evalTimer := none
      currentId := none
      multipvResults := []
      busy := false }
  match st1.pendingQueue with
  | some c => runEvaluate c { st1 with pendingQueue := none }
  | none => st1

/-- Continuation of the init coroutine when the awaited _sendAndWait
resolves: after uciok, write the three persistent option commands and
start the second _sendAndWait for readyok; after readyok, mark the
driver ready. -/
def advanceInit (st : DriverState) : DriverState :=
  match st.initPhase with
  | .waitUciok =>
    { st with
      sent := st.sent ++
        ["setoption name MultiPV value " ++ toString st.cfgMultiPV ++ "\n",
         "setoption name Threads value " ++ toString st.cfgThreads ++ "\n",
         "setoption name SyzygyProbeDepth value 0\n",
         "isready\n"],
      initHandler := some "readyok"
      initPhase := .waitReadyok }
  | .waitReadyok => { st with ready := true, initPhase := .done }
  | _ => st

/-- Timer of the active _sendAndWait firing: null the line handler and
reject the awaited promise, which fails init() with the timeout
message. -/
def onInitTimeout (st : DriverState) : DriverState :=
  match st.initHandler with
  | some tok =>
    { st with
      initHandler := none
      initPhase := .failed ("Timeout waiting for \"" ++ tok ++ "\"") }
  | none => st

/-- StockfishProcess._onLine: ignore empty lines; route to the one-shot
init line handler while one is installed (resolving its _sendAndWait on
the expected token); otherwise parse info lines that mention multipv,
and on a bestmove line, unless the busy guard shows the timeout already
settled this evaluation, build the result, clean up (which starts any
queued call) and resolve the captured resolver. -/
def onLine (line : String) (st : DriverState) :
    DriverState × List (Nat × Settle) :=
  if line = "" then (st, [])
  else
    match st.initHandler with
    | some tok =>
      if strStarts line tok then (advanceInit { st with initHandler := none }, [])
      else (st, [])
    | none =>
      if strStarts line "info" && strIncludes line " multipv " then
        ({ st with multipvResults := parseInfoLine st.sideToMove line st.multipvResults }, [])
      else if strStarts line "bestmove" then
        if ¬ st.busy then (st, [])
        else
          let r := buildResult st.multipvResults
          let st2 := cleanupEval st
          match st.currentId with
          | some i => (st2, [(i, .resolvedResult r)])
          | none => (st2, [])
      else (st, [])

/-- Armed per-evaluation timer firing (StockfishProcess._runEvaluate's
setTimeout callback): do nothing when the busy guard shows the
evaluation already resolved; otherwise write stop, discard the partial
line buffer, reject the promise whose reject closure the timer captured,
and clean up (which starts any queued call). -/
def onEvalTimeout (st : DriverState) : DriverState × List (Nat × Settle) :=
  match st.evalTimer with
  | none => (st, [])
  | some tid =>
    if ¬ st.busy then (st, [])
    else
      let st1 := { st with sent := st.sent ++ ["stop\n"], lineBuffer := "" }
      (cleanupEval st1, [(tid, .rejected "Stockfish timeout")])

/-- Process error event handler of StockfishProcess.init: reject the
current evaluation (if any) with the process error message and clean up;
with no evaluation in flight (in particular during the init handshake)
nothing is rejected. -/
def onProcError (msg : String) (st : DriverState) :
    DriverState × List (Nat × Settle) :=
  match st.currentId with
  | some i => (cleanupEval st, [(i, .rejected ("Engine process error: " ++ msg))])
  | none => (st, [])

/-- Process exit event handler of StockfishProcess.init: only log and
mark the driver not ready; no promise is settled here. -/
def onProcExit (st : DriverState) : DriverState :=
  { st with ready := false }

/-- StockfishProcess.quit: a no-op when the process handle is null;
otherwise reject the queued call, then reject the current call and clean
up (the queue slot was already emptied, so nothing restarts), mark not
ready, write the quit command, await exit and null the handle. -/
def quitDriver (st : DriverState) : DriverState × List (Nat × Settle) :=
  if ¬ st.procExists then (st, [])
  else
    let qOut : List (Nat × Settle) :=
      match st.pendingQueue with
      | some c => [(c.id, .rejected "Engine shutting down")]
      | none => []
    let st1 := { st with pendingQueue := none }
    let cOut : List (Nat × Settle) :=
      match st1.currentId with
      | some i => [(i, .rejected "Engine shutting down")]
      | none => []
    let st2 := match st1.currentId with
      | some _ => cleanupEval st1
      | none => st1
    let st3 :=
      { st2 with
        ready := false
        sent := st2.sent ++ ["quit\n"]
        procExists := false }
    (st3, qOut ++ cOut)

/-- State of an EnginePool.  Engines are identified by number; engines
models this._engines, available models this._available, queue models
this._queue and maxQueue models this._maxQueue.  running is the
bookkeeping of calls handed to _runOnEngine whose promise chain has not
yet settled (one pair per outstanding run: engine id and caller id).
dead lists the engines whose underlying driver is no longer ready
(engine._ready false), the one driver field the pool code reads. -/
structure PoolState where
  engines : List Nat
  available : List Nat
  queue : List PendingCall
  maxQueue : Nat
  running : List (Nat × Nat)
  dead : List Nat
deriving DecidableEq

/-- Pool state after EnginePool.init on a pool of the given size: all
engines are members of the idle set, in construction order. -/
def poolInit (size maxQueue : Nat) : PoolState :=
  { engines := List.range size, available := List.range size,
    queue := [], maxQueue := maxQueue, running := [], dead := [] }

/-- Dead branch of EnginePool._discardOrRelease: remove the engine from
both the master list and the available pool, and reject one queued
caller (if any) with the crash error. -/
def evictAndDrainOne (d : Nat) (ps : PoolState) :
    PoolState × List (Nat × Settle) :=
  let ps1 :=
    { ps with
      engines := ps.engines.filter (fun e => e ≠ d)
      available := ps.available.filter (fun e => e ≠ d) }
  match ps1.queue with
  | q :: qs =>
    ({ ps1 with queue := qs },
     [(q.id, .rejected "Engine crashed — no replacement available yet")])
  | [] => (ps1, [])

/-- EnginePool._runOnEngine on an already-acquired engine: calling
engine.evaluate on a ready engine starts the run (its settlement will
arrive through a later completion event); on a dead engine it throws the
not-initialized error synchronously, which the defensive catch routes
through _discardOrRelease (necessarily its dead branch) and returns as a
rejection to the caller of this run. -/
def runOnEngine (d : Nat) (c : PendingCall) (ps : PoolState) :
    PoolState × List (Nat × Settle) :=
  if d ∈ ps.dead then
    let (ps1, outs) := evictAndDrainOne d ps
    (ps1, outs ++ [(c.id, .rejected "Engine not initialized")])
  else
    ({ ps with running := ps.running ++ [(d, c.id)] }, [])

/-- EnginePool._release: with a non-empty FIFO queue, hand the engine
directly to the oldest waiting caller without touching the idle set;
otherwise push it onto the idle set. -/
def releaseEngine (d : Nat) (ps : PoolState) :
    PoolState × List (Nat × Settle) :=
  match ps.queue with
  | q :: qs => runOnEngine d q { ps with queue := qs }
  | [] => ({ ps with available := ps.available ++ [d] }, [])

/-- EnginePool._discardOrRelease: evict a dead engine (rejecting one
queued caller), or release a live one. -/
def discardOrRelease (d : Nat) (ps : PoolState) :
    PoolState × List (Nat × Settle) :=
  if d ∈ ps.dead then evictAndDrainOne d ps else releaseEngine d ps

/-- Outcome of EnginePool.evaluate for its caller. -/
inductive PoolEvalOutcome where
  | threwNoEngines
  | dispatched (d : Nat)
  | dispatchFailed (d : Nat)
  | queuedCall
  | threwOverloaded
deriving DecidableEq

/-- EnginePool.evaluate: throw the no-engines error when the driver set
is exhausted; otherwise dispatch to the first idle engine if any;
otherwise throw the overload error when the queue is at capacity, else
append to the FIFO queue. -/
def poolEvaluate (c : PendingCall) (ps : PoolState) :
    PoolState × PoolEvalOutcome × List (Nat × Settle) :=
  if ps.engines.isEmpty then (ps, .threwNoEngines, [])
  else
    match ps.available with
    | d :: rest =>
      let ps1 := { ps with available := rest }
      if d ∈ ps1.dead then
        let (ps2, outs) := runOnEngine d c ps1
        (ps2, .dispatchFailed d, outs)
      else
        let (ps2, outs) := runOnEngine d c ps1
        (ps2, .dispatched d, outs)
    | [] =>
      if ps.queue.length ≥ ps.maxQueue then (ps, .threwOverloaded, [])
      else ({ ps with queue := ps.queue ++ [c] }, .queuedCall, [])

/-- Successful completion of the run of engine d (the .then callback of
_runOnEngine): the run leaves the bookkeeping and the engine is
released. -/
def completeOk (d : Nat) (ps : PoolState) : PoolState × List (Nat × Settle) :=
  let ps1 := { ps with running := ps.running.filter (fun p => p.1 ≠ d) }
  releaseEngine d ps1

/-- Failed completion of the run of engine d (the .catch callback of
_runOnEngine): the run leaves the bookkeeping and the engine is
discarded or released; the error itself is re-thrown to the run's
caller through the same promise chain. -/
def completeErr (d : Nat) (ps : PoolState) : PoolState × List (Nat × Settle) :=
  let ps1 := { ps with running := ps.running.filter (fun p => p.1 ≠ d) }
  discardOrRelease d ps1

/-- Unexpected exit of engine d's underlying process, as the pool sees
it: the driver's exit handler marks that driver not ready and nothing
else; no pool structure is touched and no promise is settled. -/
def poolDriverExit (d : Nat) (ps : PoolState) : PoolState :=
  { ps with dead := d :: ps.dead }

/-- EnginePool.quit: reject every queued caller with the shutdown error,
clear the queue and the idle set (the per-driver quits are modelled by
quitDriver on each engine's driver state). -/
def poolQuit (ps : PoolState) : PoolState × List (Nat × Settle) :=
  ({ ps with queue := [], available := [] },
   ps.queue.map (fun q => (q.id, .rejected "Engine pool shutting down")))

/-- Events that drive the pool state machine. -/
inductive PoolEvent where
  | evalReq (c : PendingCall)
  | runOk (d : Nat)
  | runErr (d : Nat)
  | procExit (d : Nat)
  | quitPool
deriving DecidableEq

/-- One pool transition per event. -/
def poolStep : PoolEvent → PoolState → PoolState
  | .evalReq c, ps => (poolEvaluate c ps).1
  | .runOk d, ps => (completeOk d ps).1
  | .runErr d, ps => (completeErr d ps).1
  | .procExit d, ps => poolDriverExit d ps
  | .quitPool, ps => (poolQuit ps).1

/-- Enabling condition of a pool event: completion callbacks exist only
for engines with an outstanding run. -/
def poolEnabled : PoolEvent → PoolState → Prop
  | .evalReq _, _ => True
  | .runOk d, ps => d ∈ ps.running.map Prod.fst
  | .runErr d, ps => d ∈ ps.running.map Prod.fst
  | .procExit _, _ => True
  | .quitPool, _ => True

/-- Pool invariant: an engine with an outstanding run is never a member
of the idle set, and neither the idle set nor the set of engines with
outstanding runs contains duplicates. -/
def PoolInv (ps : PoolState) : Prop :=
  (∀ d, d ∈ ps.running.map Prod.fst → d ∉ ps.available) ∧
  ps.available.Nodup ∧ (ps.running.map Prod.fst).Nodup

/-- A line whose mate distance is not the literal zero.  The comparator
of _buildResult is a consistent total preorder exactly on such lines
(the engine emits score mate 0 only for already-decided positions); the
ordering theorems below are stated under this condition. -/
def lineOk (m : MoveRec) : Prop := m.mate ≠ some 0

/-- Tier of a line under the comparator: winning-mate lines (0), then
centipawn lines (1), then losing-mate lines (2). -/
def keyT (m : MoveRec) : Nat :=
  match m.mate with
  | some v => if 0 < v then 0 else 2
  | none => 1

/-- Within-tier sort key of a line under the comparator: mate distance
for winning mates, negated evaluation for centipawn lines, negated mate
distance for losing mates (all ascending). -/
def keyV (m : MoveRec) : Int :=
  match m.mate with
  | some v => if 0 < v then v else -v
  | none => -m.evaluation

/-- Lexicographic order on (keyT, keyV): the total preorder that the
comparator of _buildResult induces on lines with nonzero mates. -/
def keyLe (a b : MoveRec) : Prop :=
  keyT a < keyT b ∨ (keyT a = keyT b ∧ keyV a ≤ keyV b)

/-- Ordering relation of the result list as the (amended) specification
describes it: a line may precede a line it outranks-or-ties under the
rule: winning mates first by increasing distance, then centipawn lines
by descending evaluation, then losing mates by increasing magnitude of
the distance (fastest loss first); any winning mate outranks any
centipawn line and any centipawn line outranks any losing mate. -/
def specOrderedLe (a b : MoveRec) : Prop :=
  match a.mate, b.mate with
  | some am, some bm =>
    (0 < am ∧ 0 < bm ∧ am ≤ bm) ∨ (am < 0 ∧ bm < 0 ∧ bm ≤ am) ∨
    (0 < am ∧ bm < 0)
  | some am, none => 0 < am
  | none, some bm => bm < 0
  | none, none => b.evaluation ≤ a.evaluation

/-- The contested part of the ordering the claim states: among two lines
that both carry losing (negative) mate distances, the earlier one must
be the slower loss, that is, its mate distance must be at most the
later one's (larger magnitude first).  Vacuously true for any other pair
of lines. -/
def slowestLossFirstB (a b : MoveRec) : Bool :=
  match a.mate, b.mate with
  | some am, some bm => !(decide (am < 0) && decide (bm < 0)) || decide (am ≤ bm)
  | _, _ => true

/-- Evaluation-run accumulator obtained by parsing two losing-mate info
lines, used to exhibit the order the code actually produces. -/
def c2Acc : List (Nat × MoveRec) :=
  parseInfoLine "w" "info depth 10 multipv 2 score mate -4 pv d2d4"
    (parseInfoLine "w" "info depth 10 multipv 1 score mate -2 pv e2e4" [])

/-- Settlements delivered to caller i among a settlement log. -/
def settleFor (i : Nat) (l : List (Nat × Settle)) : List (Nat × Settle) :=
  l.filter (fun p => p.1 == i)

/-- Concrete pool for the admission scenario: size 2 (engines 0 and 1,
both idle and alive) and maximum queue length 1. -/
def c6Pool : PoolState :=
  { engines := [0, 1], available := [0, 1], queue := [], maxQueue := 1,
    running := [], dead := [] }

/-- Ready driver used by the concrete crash scenarios. -/
def readyDriver : DriverState :=
  { driverNew 3 1 with procExists := true, ready := true,
                       initPhase := .done }

/-- Driver busy with the call of caller 7 and holding the call of caller
9 in its queue slot, at the moment its process exits. -/
def c1Driver : DriverState :=
  (evalCall ⟨9, "q w", 10⟩
    (runEvaluate ⟨7, "p w", 12⟩ readyDriver)).1

/-- Pool in which engine 0 is running caller 7's call while caller 20
waits in the admission queue, at the moment engine 0's process exits. -/
def c1Pool : PoolState :=
  { engines := [0, 1], available := [1], queue := [⟨20, "fq", 10⟩],
    maxQueue := 10, running := [(0, 7)], dead := [] }

lemma keyLe_trans {a b c : MoveRec} (h1 : keyLe a b) (h2 : keyLe b c) :
    keyLe a c := by
  unfold keyLe at h1 h2 ⊢
  omega

lemma keyLe_total (a b : MoveRec) : keyLe a b ∨ keyLe b a := by
  unfold keyLe
  omega

lemma cmp_le_iff_keyLe {a b : MoveRec} (ha : lineOk a) (hb : lineOk b) :
    cmpMoves a b ≤ 0 ↔ keyLe a b := by
  unfold lineOk at ha hb
  rcases hma : a.mate with _ | am <;> rcases hmb : b.mate with _ | bm
  · simp [cmpMoves, keyLe, keyT, keyV, hma, hmb]
  · have hbm : bm ≠ 0 := by
      rw [hmb] at hb
      simpa using hb
    by_cases h2 : 0 < bm <;>
      simp [cmpMoves, keyLe, keyT, keyV, hma, hmb, h2] <;> omega
  · have ham : am ≠ 0 := by
      rw [hma] at ha
      simpa using ha
    by_cases h1 : 0 < am <;>
      simp [cmpMoves, keyLe, keyT, keyV, hma, hmb, h1] <;> omega
  · have ham : am ≠ 0 := by
      rw [hma] at ha
      simpa using ha
    have hbm : bm ≠ 0 := by
      rw [hmb] at hb
      simpa using hb
    by_cases h1 : 0 < am <;> by_cases h2 : 0 < bm <;>
      simp [cmpMoves, keyLe, keyT, keyV, hma, hmb, h1, h2] <;> omega

lemma mem_sortInsert {cmp : α → α → Int} {x z : α} {l : List α} :
    z ∈ sortInsert cmp x l ↔ z = x ∨ z ∈ l := by
  induction l with
  | nil => simp [sortInsert]
  | cons y ys ih =>
    by_cases h : cmp x y ≤ 0 <;> simp [sortInsert, h, ih] <;> tauto

lemma mem_sortByCmp {cmp : α → α → Int} {z : α} {l : List α} :
    z ∈ sortByCmp cmp l ↔ z ∈ l := by
  induction l with
  | nil => simp [sortByCmp]
  | cons y ys ih => simp [sortByCmp, mem_sortInsert, ih]

lemma pairwise_sortInsert_ok {x : MoveRec} {l : List MoveRec}
    (hx : lineOk x) (hl : ∀ y ∈ l, lineOk y) (hp : l.Pairwise keyLe) :
    (sortInsert cmpMoves x l).Pairwise keyLe := by
  induction l with
  | nil => simp [sortInsert]
  | cons y ys ih =>
    have hy : lineOk y := hl y (by simp)
    have hys : ∀ z ∈ ys, lineOk z := fun z hz => hl z (by simp [hz])
    rcases List.pairwise_cons.mp hp with ⟨hyz, hp2⟩
    by_cases h : cmpMoves x y ≤ 0
    · simp only [sortInsert, if_pos h]
      refine List.pairwise_cons.mpr ⟨?_, hp⟩
      intro z hz
      rcases List.mem_cons.mp hz with rfl | hz2
      · exact (cmp_le_iff_keyLe hx hy).mp h
      · exact keyLe_trans ((cmp_le_iff_keyLe hx hy).mp h) (hyz z hz2)
    · simp only [sortInsert, if_neg h]
      refine List.pairwise_cons.mpr ⟨?_, ih hys hp2⟩
      intro z hz
      rcases mem_sortInsert.mp hz with rfl | hz2
      · rcases keyLe_total z y with h2 | h2
        · exact absurd ((cmp_le_iff_keyLe hx hy).mpr h2) h
        · exact h2
      · exact hyz z hz2

lemma pairwise_sortByCmp_ok {l : List MoveRec}
    (hl : ∀ y ∈ l, lineOk y) :
    (sortByCmp cmpMoves l).Pairwise keyLe := by
  induction l with
  | nil => simp [sortByCmp]
  | cons y ys ih =>
    have hy : lineOk y := hl y (by simp)
    have hys : ∀ z ∈ ys, lineOk z := fun z hz => hl z (by simp [hz])
    exact pairwise_sortInsert_ok hy
      (fun z hz => hys z (mem_sortByCmp.mp hz)) (ih hys)

lemma getAssoc_mem {k : Nat} {v : MoveRec} {acc : List (Nat × MoveRec)}
    (h : getAssoc k acc = some v) : (k, v) ∈ acc := by
  induction acc with
  | nil => simp [getAssoc] at h
  | cons p rest ih =>
    obtain ⟨k2, v2⟩ := p
    by_cases hk : k2 = k
    · subst hk
      simp [getAssoc] at h
      simp [h]
    · simp [getAssoc, hk] at h
      simp [ih h]

lemma mem_collectRecords {acc : List (Nat × MoveRec)} {m : MoveRec}
    (h : m ∈ collectRecords acc) : ∃ k, (k, m) ∈ acc := by
  unfold collectRecords at h
  rcases List.mem_filterMap.mp h with ⟨o, hmem, ho⟩
  rcases o with _ | m2
  · simp at ho
  · rcases List.mem_map.mp hmem with ⟨k, _, hg⟩
    by_cases hmv : m2.move = "" <;> simp [hmv] at ho
    subst ho
    exact ⟨k, getAssoc_mem hg⟩

lemma keyLe_imp_spec {a b : MoveRec} (ha : lineOk a) (hb : lineOk b)
    (h : keyLe a b) : specOrderedLe a b := by
  unfold lineOk at ha hb
  rcases hma : a.mate with _ | am <;> rcases hmb : b.mate with _ | bm
  · simp only [keyLe, keyT, keyV, hma, hmb] at h
    simp only [specOrderedLe, hma, hmb]
    omega
  · have hbm : bm ≠ 0 := by
      rw [hmb] at hb
      simpa using hb
    by_cases h2 : 0 < bm <;>
      simp only [keyLe, keyT, keyV, hma, hmb, if_pos, if_neg, h2] at h <;>
      simp only [specOrderedLe, hma, hmb] <;>
      simp [h2] at h ⊢ <;> omega
  · have ham : am ≠ 0 := by
      rw [hma] at ha
      simpa using ha
    by_cases h1 : 0 < am <;>
      simp only [keyLe, keyT, keyV, hma, hmb] at h <;>
      simp only [specOrderedLe, hma, hmb] <;>
      simp [h1] at h ⊢ <;> omega
  · have ham : am ≠ 0 := by
      rw [hma] at ha
      simpa using ha
    have hbm : bm ≠ 0 := by
      rw [hmb] at hb
      simpa using hb
    by_cases h1 : 0 < am <;> by_cases h2 : 0 < bm <;>
      simp only [keyLe, keyT, keyV, hma, hmb] at h <;>
      simp only [specOrderedLe, hma, hmb] <;>
      simp [h1, h2] at h ⊢ <;> omega

lemma pairwise_imp_mem {α : Type} {R S : α → α → Prop} :
    ∀ {l : List α}, (∀ a ∈ l, ∀ b ∈ l, R a b → S a b) →
      l.Pairwise R → l.Pairwise S := by
  intro l
  induction l with
  | nil => intro _ _; exact List.Pairwise.nil
  | cons x xs ih =>
    intro hmem hp
    rcases List.pairwise_cons.mp hp with ⟨hx, hxs⟩
    refine List.pairwise_cons.mpr ⟨?_, ?_⟩
    · intro b hb
      exact hmem x (by simp) b (by simp [hb]) (hx b hb)
    · exact ih (fun a ha b hb => hmem a (by simp [ha]) b (by simp [hb])) hxs

/-- C2 counterexample: on the accumulator holding the two losing lines
mate -2 (rank 1) and mate -4 (rank 2), the result list produced by
_buildResult is ordered [mate -2, mate -4] (fastest loss first), which
violates the slowest-loss-first ordering asserted by the claim. -/
theorem C2_counterexample :
    (buildResult c2Acc).moves.map (fun m => m.mate) = [some (-2), some (-4)] ∧
    ¬ (buildResult c2Acc).moves.Pairwise (fun a b => slowestLossFirstB a b = true) := by
  constructor
  · decide
  · intro h
    have hmoves : (buildResult c2Acc).moves =
        [⟨"e2e4", -10000, some (-2), ["e2e4"]⟩,
         ⟨"d2d4", -10000, some (-4), ["d2d4"]⟩] := by decide
    rw [hmoves] at h
    have h2 := (List.pairwise_cons.mp h).1
      ⟨"d2d4", -10000, some (-4), ["d2d4"]⟩ (by simp)
    simp [slowestLossFirstB] at h2

/-- C2 (amended): for every completed evaluation whose collected lines
all have nonzero mate distances, the result list of _buildResult is
ordered so that winning-mate lines come first by increasing mate
distance, centipawn lines follow by descending evaluation, and
losing-mate lines come last ordered by increasing magnitude of the mate
distance (fastest loss first); any winning-mate line outranks any
centipawn line and any centipawn line outranks any losing-mate line. -/
theorem C2_theorem (acc : List (Nat × MoveRec))
    (hacc : ∀ p ∈ acc, p.2.mate ≠ some 0) :
    (buildResult acc).moves.Pairwise specOrderedLe := by
  have hok : ∀ m ∈ collectRecords acc, lineOk m := by
    intro m hm
    rcases mem_collectRecords hm with ⟨k, hk⟩
    exact hacc (k, m) hk
  have hokS : ∀ m ∈ sortByCmp cmpMoves (collectRecords acc), lineOk m :=
    fun m hm => hok m (mem_sortByCmp.mp hm)
  have hspec : (sortByCmp cmpMoves (collectRecords acc)).Pairwise specOrderedLe :=
    pairwise_imp_mem
      (fun a ha b hb hr => keyLe_imp_spec (hokS a ha) (hokS b hb) hr)
      (pairwise_sortByCmp_ok hok)
  unfold buildResult
  cases hs : sortByCmp cmpMoves (collectRecords acc) with
  | nil => simp
  | cons p rest =>
    rw [hs] at hspec
    simpa using hspec

/-- C2 witness: the amended ordering theorem applied to the accumulator
of the claim's own example (rank 1 mate +2, rank 2 cp +500, rank 3 mate
-4), together with the concrete post-sort order [mate +2, cp +500,
mate -4] that the claim states. -/
theorem C2_witness :
    (buildResult
      [(1, ⟨"a1a2", 10000, some 2, ["a1a2"]⟩),
       (2, ⟨"b1b2", 500, none, ["b1b2"]⟩),
       (3, ⟨"c1c2", -10000, some (-4), ["c1c2"]⟩)]).moves.Pairwise specOrderedLe ∧
    (buildResult
      [(1, ⟨"a1a2", 10000, some 2, ["a1a2"]⟩),
       (2, ⟨"b1b2", 500, none, ["b1b2"]⟩),
       (3, ⟨"c1c2", -10000, some (-4), ["c1c2"]⟩)]).moves =
      [⟨"a1a2", 10000, some 2, ["a1a2"]⟩,
       ⟨"b1b2", 500, none, ["b1b2"]⟩,
       ⟨"c1c2", -10000, some (-4), ["c1c2"]⟩] := by
  constructor
  · exact C2_theorem _ (by decide)
  · decide

lemma getAssoc_setAssoc_self (k : Nat) (v : MoveRec)
    (acc : List (Nat × MoveRec)) :
    getAssoc k (setAssoc k v acc) = some v := by
  induction acc with
  | nil => simp [setAssoc, getAssoc]
  | cons p rest ih =>
    obtain ⟨k2, v2⟩ := p
    by_cases hk : k2 = k
    · simp [setAssoc, getAssoc, hk]
    · simp [setAssoc, getAssoc, hk, ih]

/-- C3: for every parsed progress line (a line in which the multipv
regular expression matched with rank n, the pv regular expression
captured a first move, and a score was captured), the raw score is
negated exactly when the side-to-move string is "b" and kept unchanged
otherwise; a mate distance positive after normalization is stored with
evaluation 10000 and a negative one with -10000; and the side-to-move
string the driver uses is the second field of the position as extracted
by _runEvaluate. -/
theorem C3_theorem (side line : String) (acc : List (Nat × MoveRec))
    (n : Nat) (mv : String) (pvRest : List String)
    (hn : multipvOf line = some n)
    (hpv : pvArrOf line = mv :: pvRest) (hmv : mv ≠ "") :
    (∀ rawMate : Int, mateRawOf line = some rawMate →
      getAssoc n (parseInfoLine side line acc) =
        some ⟨mv, if 0 < (if side = "b" then -rawMate else rawMate)
                  then 10000 else -10000,
              some (if side = "b" then -rawMate else rawMate),
              mv :: pvRest⟩ ∧
      ((0 < (if side = "b" then -rawMate else rawMate) →
        (if 0 < (if side = "b" then -rawMate else rawMate)
         then (10000 : Int) else -10000) = 10000)) ∧
      (((if side = "b" then -rawMate else rawMate) < 0 →
        (if 0 < (if side = "b" then -rawMate else rawMate)
         then (10000 : Int) else -10000) = -10000))) ∧
    (∀ rawEval : Int, mateRawOf line = none → cpRawOf line = some rawEval →
      getAssoc n (parseInfoLine side line acc) =
        some ⟨mv, if side = "b" then -rawEval else rawEval, none,
              mv :: pvRest⟩) ∧
    (∀ (c : PendingCall) (st : DriverState),
      (runEvaluate c st).sideToMove = sideOfFen c.fen) := by
  refine ⟨?_, ?_, ?_⟩
  · intro rawMate hmate
    refine ⟨?_, ?_, ?_⟩
    · simp only [parseInfoLine, hn, hpv, hmate, hmv, if_neg hmv]
      exact getAssoc_setAssoc_self n _ acc
    · intro hpos
      simp [hpos]
    · intro hneg
      have : ¬ 0 < (if side = "b" then -rawMate else rawMate) := by omega
      simp [this]
  · intro rawEval hmate hcp
    simp only [parseInfoLine, hn, hpv, hmate, hcp, hmv, if_neg hmv]
    exact getAssoc_setAssoc_self n _ acc
  · intro c st
    simp [runEvaluate]

/-- C3 witness: the normalization theorem applied with the second player
to move to a concrete centipawn line (raw +120 normalizes to -120) and a
concrete mate line (raw mate +3 normalizes to mate -3 with evaluation
-10000). -/
theorem C3_witness :
    getAssoc 1 (parseInfoLine "b"
        "info depth 12 multipv 1 score cp 120 nodes 99 pv e2e4" []) =
      some ⟨"e2e4", -120, none, ["e2e4"]⟩ ∧
    getAssoc 1 (parseInfoLine "b"
        "info depth 12 multipv 1 score mate 3 pv d2d4" []) =
      some ⟨"d2d4", -10000, some (-3), ["d2d4"]⟩ := by
  constructor
  · have h0 := C3_theorem "b"
      "info depth 12 multipv 1 score cp 120 nodes 99 pv e2e4" [] 1 "e2e4" []
      (by decide) (by decide) (by decide)
    have h := h0.2.1 120 (by decide) (by decide)
    simpa using h
  · have h0 := C3_theorem "b"
      "info depth 12 multipv 1 score mate 3 pv d2d4" [] 1 "d2d4" []
      (by decide) (by decide) (by decide)
    have h := (h0.1 3 (by decide)).1
    simpa using h

/-- C10: when a bestmove line arrives while the driver is busy and the
per-evaluation accumulator holds no parsed progress line, the pending
result is resolved (not rejected) with null bestMove, null evaluation,
null mate and an empty moves list, and the evaluation state is cleaned
up. -/
theorem C10_theorem (st : DriverState) (i : Nat) (line : String)
    (hinit : st.initHandler = none) (hbusy : st.busy = true)
    (hcur : st.currentId = some i) (hacc : st.multipvResults = [])
    (hne : line ≠ "") (hbm : strStarts line "bestmove" = true)
    (hinfo : strStarts line "info" = false) :
    onLine line st =
      (cleanupEval st, [(i, Settle.resolvedResult ⟨none, none, none, []⟩)]) := by
  simp only [onLine, hinit, hbusy, hcur, hbm, hinfo, if_neg hne]
  simp [hacc, buildResult, collectRecords, sortByCmp]

/-- C10 witness: the all-null-result theorem applied to a concrete busy
driver that parsed no progress line before bestmove arrived. -/
theorem C10_witness :
    onLine "bestmove a7a8q"
      (runEvaluate ⟨7, "8/P7/8/8/8/8/8/K6k w - - 0 1", 12⟩
        { driverNew 3 1 with procExists := true, ready := true,
                             initPhase := .done }) =
      (cleanupEval
        (runEvaluate ⟨7, "8/P7/8/8/8/8/8/K6k w - - 0 1", 12⟩
          { driverNew 3 1 with procExists := true, ready := true,
                               initPhase := .done }),
       [(7, Settle.resolvedResult ⟨none, none, none, []⟩)]) := by
  exact C10_theorem _ 7 "bestmove a7a8q" (by decide) (by decide) (by decide)
    (by decide) (by decide) (by decide) (by decide)

/-- C5: on a ready, idle driver with an empty queue slot, three
evaluate() calls issued in immediate succession produce one immediate
run, one queued call, and one synchronous busy failure; the first call
makes the driver busy and the second occupies the single queue slot. -/
theorem C5_theorem (st : DriverState) (c1 c2 c3 : PendingCall)
    (hready : st.ready = true) (hbusy : st.busy = false)
    (hq : st.pendingQueue = none) :
    (evalCall c1 st).2 = .started ∧
    (evalCall c1 st).1.busy = true ∧
    (evalCall c2 (evalCall c1 st).1).2 = .queued ∧
    (evalCall c2 (evalCall c1 st).1).1.pendingQueue = some c2 ∧
    (evalCall c3 (evalCall c2 (evalCall c1 st).1).1).2 = .threwBusy := by
  simp [evalCall, runEvaluate, hready, hbusy, hq]

/-- C5 witness: the two-deep pipeline theorem applied to a freshly
initialized driver and three concrete calls. -/
theorem C5_witness :
    (evalCall ⟨1, "f1", 10⟩
      { driverNew 3 1 with procExists := true, ready := true,
                           initPhase := .done }).2 = .started ∧
    (evalCall ⟨2, "f2", 10⟩
      (evalCall ⟨1, "f1", 10⟩
        { driverNew 3 1 with procExists := true, ready := true,
                             initPhase := .done }).1).2 = .queued ∧
    (evalCall ⟨3, "f3", 10⟩
      (evalCall ⟨2, "f2", 10⟩
        (evalCall ⟨1, "f1", 10⟩
          { driverNew 3 1 with procExists := true, ready := true,
                               initPhase := .done }).1).1).2 = .threwBusy := by
  have h := C5_theorem
    { driverNew 3 1 with procExists := true, ready := true,
                         initPhase := .done }
    ⟨1, "f1", 10⟩ ⟨2, "f2", 10⟩ ⟨3, "f3", 10⟩
    (by decide) (by decide) (by decide)
  exact ⟨h.1, h.2.2.1, h.2.2.2.2⟩

/-- C4: for a driver busy with the evaluation of caller i whose armed
timer belongs to that evaluation, exactly one of a result and the
timeout rejection reaches caller i, in either interleaving of the two
racing events.  If the timer fires first, caller i receives exactly the
timeout rejection and the subsequent bestmove line delivers nothing to
it (the busy guard, or the restart of a queued call with a different
caller, stops it).  If the bestmove line arrives first, caller i
receives exactly the result, and afterwards the timer firing can
deliver nothing to it (the timer was cleared, or re-armed for a queued
call with a different caller). -/
theorem C4_theorem (st : DriverState) (i : Nat) (line : String)
    (hinit : st.initHandler = none) (hbusy : st.busy = true)
    (hcur : st.currentId = some i) (htimer : st.evalTimer = some i)
    (hqid : ∀ c : PendingCall, st.pendingQueue = some c → c.id ≠ i)
    (hne : line ≠ "") (hbm : strStarts line "bestmove" = true)
    (hinfo : strStarts line "info" = false) :
    (settleFor i
        ((onEvalTimeout st).2 ++ (onLine line (onEvalTimeout st).1).2) =
      [(i, Settle.rejected "Stockfish timeout")]) ∧
    (settleFor i (onLine line st).2 =
      [(i, Settle.resolvedResult (buildResult st.multipvResults))]) ∧
    (settleFor i (onEvalTimeout (onLine line st).1).2 = []) := by
  refine ⟨?_, ?_, ?_⟩
  · rcases hpq : st.pendingQueue with _ | c
    · simp [onEvalTimeout, htimer, hbusy, cleanupEval, hpq, onLine,
            if_neg hne, hinit, hinfo, hbm, settleFor]
    · have hcne : c.id ≠ i := hqid c hpq
      simp [onEvalTimeout, htimer, hbusy, cleanupEval, hpq, runEvaluate,
            onLine, if_neg hne, hinit, hinfo, hbm, settleFor, hcne]
  · simp [onLine, if_neg hne, hinit, hinfo, hbm, hbusy, hcur, settleFor]
  · rcases hpq : st.pendingQueue with _ | c
    · simp [onLine, if_neg hne, hinit, hinfo, hbm, hbusy, hcur,
            cleanupEval, hpq, onEvalTimeout, settleFor]
    · have hcne : c.id ≠ i := hqid c hpq
      simp [onLine, if_neg hne, hinit, hinfo, hbm, hbusy, hcur,
            cleanupEval, hpq, runEvaluate, onEvalTimeout, settleFor, hcne]

/-- C4 witness: the race theorem applied to a concrete busy driver (no
queued call) and the line "bestmove e2e4". -/
theorem C4_witness :
    (settleFor 7
        ((onEvalTimeout
            (runEvaluate ⟨7, "f w", 10⟩
              { driverNew 3 1 with procExists := true, ready := true,
                                   initPhase := .done })).2 ++
          (onLine "bestmove e2e4"
            (onEvalTimeout
              (runEvaluate ⟨7, "f w", 10⟩
                { driverNew 3 1 with procExists := true, ready := true,
                                     initPhase := .done })).1).2) =
      [(7, Settle.rejected "Stockfish timeout")]) ∧
    (settleFor 7
        (onLine "bestmove e2e4"
          (runEvaluate ⟨7, "f w", 10⟩
            { driverNew 3 1 with procExists := true, ready := true,
                                 initPhase := .done })).2 =
      [(7, Settle.resolvedResult
            (buildResult
              (runEvaluate ⟨7, "f w", 10⟩
                { driverNew 3 1 with procExists := true, ready := true,
                                     initPhase := .done }).multipvResults))]) := by
  have h := C4_theorem
    (runEvaluate ⟨7, "f w", 10⟩
      { driverNew 3 1 with procExists := true, ready := true,
                           initPhase := .done })
    7 "bestmove e2e4" (by decide) (by decide) (by decide) (by decide)
    (by intro c hc; simp [runEvaluate, driverNew] at hc) (by decide)
    (by decide) (by decide)
  exact ⟨h.1, h.2.1⟩

/-- C9 counterexample: when the executable cannot be started, the spawn
failure arrives as a process error event during the first handshake
step; the error handler settles nothing (there is no in-flight
evaluation whose reject it could call), the handshake then times out,
and init() fails with the handshake-timeout message for the uciok token
-- not with a distinct process-spawn error: the failure message does not
carry the process-error prefix. -/
theorem C9_counterexample :
    (onProcError "spawn stockfish ENOENT" (initStart (driverNew 3 1))).2 = [] ∧
    (onInitTimeout
        (onProcError "spawn stockfish ENOENT"
          (initStart (driverNew 3 1))).1).initPhase =
      InitPhase.failed "Timeout waiting for \"uciok\"" ∧
    (("Engine process error: ".toList).isPrefixOf
        ("Timeout waiting for \"uciok\"").toList) = false := by
  refine ⟨by decide, by decide, by decide⟩

/-- C9 (amended): init() fails with the handshake-timeout error when
either handshake step (the capability negotiation awaiting uciok, or the
option configuration and synchronization awaiting readyok) does not
complete within the initialization timeout; a spawn failure is not
reported as a distinct process-spawn error, because the process error
handler rejects only an in-flight evaluation's pending result and during
init there is none, so the spawn failure surfaces as the handshake
timeout. -/
theorem C9_theorem :
    (∀ (st : DriverState) (tok : String), st.initHandler = some tok →
      (onInitTimeout st).initPhase =
        InitPhase.failed ("Timeout waiting for \"" ++ tok ++ "\"")) ∧
    (∀ (st : DriverState) (msg : String), st.currentId = none →
      onProcError msg st = (st, [])) := by
  constructor
  · intro st tok h
    simp [onInitTimeout, h]
  · intro st msg h
    simp [onProcError, h]

/-- C9 witness: the amended theorem applied to the concrete driver state
right after init spawned the process and sent uci (handler waiting for
uciok, no in-flight evaluation). -/
theorem C9_witness :
    (onInitTimeout (initStart (driverNew 3 1))).initPhase =
      InitPhase.failed "Timeout waiting for \"uciok\"" ∧
    onProcError "spawn stockfish ENOENT" (initStart (driverNew 3 1)) =
      (initStart (driverNew 3 1), []) := by
  constructor
  · have h := C9_theorem.1 (initStart (driverNew 3 1)) "uciok" (by decide)
    simpa using h
  · exact C9_theorem.2 (initStart (driverNew 3 1)) "spawn stockfish ENOENT"
      (by decide)

/-- C6: Pool.evaluate fails immediately with the no-engines error when
the driver set is empty; otherwise dispatches immediately to the first
idle driver when one exists; otherwise appends to the admission queue
when its length is below the maximum; otherwise fails immediately with
the overload error.  With pool size 2 and maximum queue 1, four calls
issued in immediate succession yield two dispatches, one queued call and
one overload failure. -/
theorem C6_theorem :
    (∀ (c : PendingCall) (ps : PoolState), ps.engines = [] →
      poolEvaluate c ps = (ps, .threwNoEngines, [])) ∧
    (∀ (c : PendingCall) (ps : PoolState) (d : Nat) (rest : List Nat),
      ps.engines ≠ [] → ps.available = d :: rest → d ∉ ps.dead →
      poolEvaluate c ps =
        ({ ps with available := rest, running := ps.running ++ [(d, c.id)] },
         .dispatched d, [])) ∧
    (∀ (c : PendingCall) (ps : PoolState),
      ps.engines ≠ [] → ps.available = [] → ps.queue.length < ps.maxQueue →
      poolEvaluate c ps =
        ({ ps with queue := ps.queue ++ [c] }, .queuedCall, [])) ∧
    (∀ (c : PendingCall) (ps : PoolState),
      ps.engines ≠ [] → ps.available = [] → ps.maxQueue ≤ ps.queue.length →
      poolEvaluate c ps = (ps, .threwOverloaded, [])) ∧
    ((poolEvaluate ⟨1, "f1", 10⟩ c6Pool).2.1 = .dispatched 0 ∧
     (poolEvaluate ⟨2, "f2", 10⟩
        (poolEvaluate ⟨1, "f1", 10⟩ c6Pool).1).2.1 = .dispatched 1 ∧
     (poolEvaluate ⟨3, "f3", 10⟩
        (poolEvaluate ⟨2, "f2", 10⟩
          (poolEvaluate ⟨1, "f1", 10⟩ c6Pool).1).1).2.1 = .queuedCall ∧
     (poolEvaluate ⟨4, "f4", 10⟩
        (poolEvaluate ⟨3, "f3", 10⟩
          (poolEvaluate ⟨2, "f2", 10⟩
            (poolEvaluate ⟨1, "f1", 10⟩ c6Pool).1).1).1).2.1 =
       .threwOverloaded) := by
  refine ⟨?_, ?_, ?_, ?_, ?_⟩
  · intro c ps h
    simp [poolEvaluate, h]
  · intro c ps d rest hne hav hd
    have hie : ps.engines.isEmpty = false := by
      cases he : ps.engines with
      | nil => exact absurd he hne
      | cons a l => simp [he]
    simp [poolEvaluate, hie, hav, runOnEngine, hd]
  · intro c ps hne hav hlen
    have hie : ps.engines.isEmpty = false := by
      cases he : ps.engines with
      | nil => exact absurd he hne
      | cons a l => simp [he]
    simp only [poolEvaluate, hie, hav, Bool.false_eq_true, if_false]
    rw [if_neg (by omega)]
  · intro c ps hne hav hlen
    have hie : ps.engines.isEmpty = false := by
      cases he : ps.engines with
      | nil => exact absurd he hne
      | cons a l => simp [he]
    simp only [poolEvaluate, hie, hav, Bool.false_eq_true, if_false]
    rw [if_pos (by omega)]
  · refine ⟨by decide, by decide, by decide, by decide⟩

/-- C6 witness: the dispatch branch of the admission theorem applied to
the concrete two-engine pool. -/
theorem C6_witness :
    poolEvaluate ⟨1, "f1", 10⟩ c6Pool =
      ({ c6Pool with available := [1], running := [(0, 1)] },
       .dispatched 0, []) := by
  have h := C6_theorem.2.1 ⟨1, "f1", 10⟩ c6Pool 0 [1]
    (by decide) (by decide) (by decide)
  simpa [c6Pool] using h

lemma mem_keys_filter {running : List (Nat × Nat)} {d k : Nat}
    (h : k ∈ (running.filter (fun p => p.1 ≠ d)).map Prod.fst) :
    k ∈ running.map Prod.fst ∧ k ≠ d := by
  rcases List.mem_map.mp h with ⟨p, hp, rfl⟩
  rcases List.mem_filter.mp hp with ⟨hp2, hpd⟩
  refine ⟨List.mem_map.mpr ⟨p, hp2, rfl⟩, ?_⟩
  simpa using hpd

lemma nodup_keys_filter {running : List (Nat × Nat)} {d : Nat}
    (h : (running.map Prod.fst).Nodup) :
    ((running.filter (fun p => p.1 ≠ d)).map Prod.fst).Nodup :=
  List.Nodup.sublist (List.Sublist.map Prod.fst (List.filter_sublist running)) h

lemma evictAndDrainOne_fst (d : Nat) (ps : PoolState) :
    (evictAndDrainOne d ps).1 =
      { ps with
        engines := ps.engines.filter (fun e => e ≠ d)
        available := ps.available.filter (fun e => e ≠ d)
        queue := ps.queue.tail } := by
  unfold evictAndDrainOne
  cases hq : ps.queue <;> simp [hq]

lemma poolInv_evict {d : Nat} {ps : PoolState} (h : PoolInv ps) :
    PoolInv (evictAndDrainOne d ps).1 := by
  obtain ⟨h1, h2, h3⟩ := h
  rw [evictAndDrainOne_fst]
  refine ⟨?_, ?_, ?_⟩
  · intro k hk hmem
    exact h1 k hk (List.mem_filter.mp hmem).1
  · exact h2.filter _
  · exact h3

lemma poolInv_runOnEngine {d : Nat} {c : PendingCall} {ps : PoolState}
    (h : PoolInv ps) (hdav : d ∉ ps.available)
    (hk : d ∉ ps.running.map Prod.fst) :
    PoolInv (runOnEngine d c ps).1 := by
  obtain ⟨h1, h2, h3⟩ := h
  unfold runOnEngine
  by_cases hd : d ∈ ps.dead
  · simp only [hd, if_pos]
    exact poolInv_evict ⟨h1, h2, h3⟩
  · simp only [hd, if_neg, not_false_iff]
    refine ⟨?_, h2, ?_⟩
    · intro k hk2 hmem
      rw [List.map_append] at hk2
      rcases List.mem_append.mp hk2 with hk3 | hk3
      · exact h1 k hk3 hmem
      · simp at hk3
        subst hk3
        exact hdav hmem
    · rw [List.map_append]
      simp only [List.map_cons, List.map_nil]
      rw [List.nodup_append]
      refine ⟨h3, List.nodup_singleton _, ?_⟩
      intro a ha had
      simp at had
      subst had
      exact hk ha

lemma poolInv_release {d : Nat} {ps : PoolState}
    (h : PoolInv ps) (hk : d ∉ ps.running.map Prod.fst)
    (hdav : d ∉ ps.available) :
    PoolInv (releaseEngine d ps).1 := by
  obtain ⟨h1, h2, h3⟩ := h
  unfold releaseEngine
  cases hq : ps.queue with
  | cons q qs =>
    exact poolInv_runOnEngine ⟨h1, h2, h3⟩ hdav hk
  | nil =>
    refine ⟨?_, ?_, h3⟩
    · intro k hk2 hmem
      rcases List.mem_append.mp hmem with hm | hm
      · exact h1 k hk2 hm
      · simp at hm
        subst hm
        exact hk hk2
    · rw [List.nodup_append]
      refine ⟨h2, List.nodup_singleton _, ?_⟩
      intro a ha had
      simp at had
      subst had
      exact hdav ha

lemma poolInv_discardOrRelease {d : Nat} {ps : PoolState}
    (h : PoolInv ps) (hk : d ∉ ps.running.map Prod.fst)
    (hdav : d ∉ ps.available) :
    PoolInv (discardOrRelease d ps).1 := by
  unfold discardOrRelease
  by_cases hd : d ∈ ps.dead
  · simp only [hd, if_pos]
    exact poolInv_evict h
  · simp only [hd, if_neg, not_false_iff]
    exact poolInv_release h hk hdav

lemma poolEvaluate_fst_empty {c : PendingCall} {ps : PoolState}
    (h : ps.engines.isEmpty = true) : (poolEvaluate c ps).1 = ps := by
  simp [poolEvaluate, h]

lemma poolEvaluate_fst_avail {c : PendingCall} {ps : PoolState}
    {d : Nat} {rest : List Nat}
    (h : ps.engines.isEmpty = false) (hav : ps.available = d :: rest) :
    (poolEvaluate c ps).1 = (runOnEngine d c { ps with available := rest }).1 := by
  by_cases hd : d ∈ ps.dead <;> simp [poolEvaluate, h, hav, hd]

lemma poolEvaluate_fst_queued {c : PendingCall} {ps : PoolState}
    (h : ps.engines.isEmpty = false) (hav : ps.available = [])
    (hlen : ps.queue.length < ps.maxQueue) :
    (poolEvaluate c ps).1 = { ps with queue := ps.queue ++ [c] } := by
  simp only [poolEvaluate, h, Bool.false_eq_true, if_false, hav]
  rw [if_neg (by omega)]

lemma poolEvaluate_fst_full {c : PendingCall} {ps : PoolState}
    (h : ps.engines.isEmpty = false) (hav : ps.available = [])
    (hlen : ps.maxQueue ≤ ps.queue.length) :
    (poolEvaluate c ps).1 = ps := by
  simp only [poolEvaluate, h, Bool.false_eq_true, if_false, hav]
  rw [if_pos (by omega)]

lemma completeOk_handoff {d : Nat} {ps : PoolState}
    {q : PendingCall} {qs : List PendingCall}
    (hd : d ∉ ps.dead) (hq : ps.queue = q :: qs) :
    (completeOk d ps).1 =
      { ps with
        running := ps.running.filter (fun p => p.1 ≠ d) ++ [(d, q.id)]
        queue := qs } := by
  simp [completeOk, releaseEngine, hq, runOnEngine, hd]

/-- C7: whenever a live driver finishes a call while the admission queue
is non-empty, the pool hands it the oldest queued call directly (the
call leaves the queue, the driver's new run is recorded, and the idle
set is untouched -- in particular the driver is never placed in it); and
the invariant that a driver with an outstanding run is never a member of
the idle set holds in the initial pool state and is preserved by every
pool transition. -/
theorem C7_theorem :
    (∀ (d : Nat) (ps : PoolState) (q : PendingCall) (qs : List PendingCall),
      PoolInv ps → d ∈ ps.running.map Prod.fst → d ∉ ps.dead →
      ps.queue = q :: qs →
      (completeOk d ps).1.queue = qs ∧
      (d, q.id) ∈ (completeOk d ps).1.running ∧
      (completeOk d ps).1.available = ps.available ∧
      d ∉ (completeOk d ps).1.available) ∧
    (∀ (e : PoolEvent) (ps : PoolState),
      PoolInv ps → poolEnabled e ps → PoolInv (poolStep e ps)) ∧
    (∀ size maxQ : Nat, PoolInv (poolInit size maxQ)) := by
  refine ⟨?_, ?_, ?_⟩
  · intro d ps q qs hinv hrun hd hq
    obtain ⟨h1, h2, h3⟩ := hinv
    have hdav : d ∉ ps.available := h1 d hrun
    rw [completeOk_handoff hd hq]
    refine ⟨rfl, by simp, rfl, hdav⟩
  · intro e ps hinv hen
    obtain ⟨h1, h2, h3⟩ := hinv
    cases e with
    | evalReq c =>
      show PoolInv (poolEvaluate c ps).1
      by_cases hie : ps.engines.isEmpty
      · rw [poolEvaluate_fst_empty hie]
        exact ⟨h1, h2, h3⟩
      · rw [Bool.not_eq_true] at hie
        cases hav : ps.available with
        | cons d rest =>
          rw [poolEvaluate_fst_avail hie hav]
          have hnd : d ∉ rest ∧ rest.Nodup := by
            rw [hav] at h2
            exact ⟨(List.nodup_cons.mp h2).1, (List.nodup_cons.mp h2).2⟩
          have hk : d ∉ ps.running.map Prod.fst := by
            intro hmem
            exact h1 d hmem (by rw [hav]; simp)
          have hinv1 : PoolInv { ps with available := rest } := by
            refine ⟨?_, hnd.2, h3⟩
            intro k hk2 hmem
            exact h1 k hk2 (by rw [hav]; simp [hmem])
          exact poolInv_runOnEngine hinv1 hnd.1 hk
        | nil =>
          by_cases hlen : ps.queue.length < ps.maxQueue
          · rw [poolEvaluate_fst_queued hie hav hlen]
            exact ⟨h1, h2, h3⟩
          · rw [poolEvaluate_fst_full hie hav (by omega)]
            exact ⟨h1, h2, h3⟩
    | runOk d =>
      show PoolInv (completeOk d ps).1
      have hdav : d ∉ ps.available := h1 d hen
      unfold completeOk
      have hinv1 : PoolInv
          { ps with running := ps.running.filter (fun p => p.1 ≠ d) } := by
        refine ⟨?_, h2, nodup_keys_filter h3⟩
        intro k hk2 hmem
        exact h1 k (mem_keys_filter hk2).1 hmem
      refine poolInv_release hinv1 ?_ hdav
      intro hmem
      exact (mem_keys_filter hmem).2 rfl
    | runErr d =>
      show PoolInv (completeErr d ps).1
      have hdav : d ∉ ps.available := h1 d hen
      unfold completeErr
      have hinv1 : PoolInv
          { ps with running := ps.running.filter (fun p => p.1 ≠ d) } := by
        refine ⟨?_, h2, nodup_keys_filter h3⟩
        intro k hk2 hmem
        exact h1 k (mem_keys_filter hk2).1 hmem
      refine poolInv_discardOrRelease hinv1 ?_ hdav
      intro hmem
      exact (mem_keys_filter hmem).2 rfl
    | procExit d =>
      exact ⟨h1, h2, h3⟩
    | quitPool =>
      show PoolInv (poolQuit ps).1
      refine ⟨?_, ?_, h3⟩
      · intro k _ hmem
        simp [poolQuit] at hmem
      · simp [poolQuit]
  · intro size maxQ
    refine ⟨?_, ?_, ?_⟩
    · intro k hk
      simp [poolInit] at hk
    · exact List.nodup_range size
    · simp [poolInit]

/-- C7 witness: the direct-handoff part applied to a concrete pool with
one running driver and one queued call, and the preservation part
applied to a concrete completion event. -/
theorem C7_witness :
    (completeOk 0
        { engines := [0, 1], available := [1], queue := [⟨9, "f9", 10⟩],
          maxQueue := 10, running := [(0, 5)], dead := [] }).1.queue = [] ∧
    (0, 9) ∈ (completeOk 0
        { engines := [0, 1], available := [1], queue := [⟨9, "f9", 10⟩],
          maxQueue := 10, running := [(0, 5)], dead := [] }).1.running ∧
    (completeOk 0
        { engines := [0, 1], available := [1], queue := [⟨9, "f9", 10⟩],
          maxQueue := 10, running := [(0, 5)], dead := [] }).1.available = [1] ∧
    PoolInv (poolStep (.runOk 0)
        { engines := [0, 1], available := [1], queue := [⟨9, "f9", 10⟩],
          maxQueue := 10, running := [(0, 5)], dead := [] }) := by
  have hinv : PoolInv
      { engines := [0, 1], available := [1], queue := [⟨9, "f9", 10⟩],
        maxQueue := 10, running := [(0, 5)], dead := [] } := by
    refine ⟨?_, by decide, by decide⟩
    intro k hk
    simp at hk
    subst hk
    decide
  have h := C7_theorem.1 0
    { engines := [0, 1], available := [1], queue := [⟨9, "f9", 10⟩],
      maxQueue := 10, running := [(0, 5)], dead := [] }
    ⟨9, "f9", 10⟩ [] hinv (by decide) (by decide) rfl
  exact ⟨h.1, h.2.1, h.2.2.1,
    C7_theorem.2.1 (.runOk 0) _ hinv (by simp [poolEnabled])⟩

/-- C1 counterexample: when the process of a driver with an in-flight
call (caller 7) and a queued call (caller 9) exits unexpectedly, the
exit handler only clears the ready flag -- it rejects nothing, and the
pool is not touched (same driver set, idle set and admission queue, so
the pool total does not drop and no admission-queue call is rejected at
exit).  The in-flight call is only settled later, by the evaluation
timeout, and with the timeout message, which is not a process-failure
message; the driver-queued call of caller 9 is then restarted on the
dead process instead of being rejected. -/
theorem C1_counterexample :
    (onProcExit c1Driver).ready = false ∧
    (onProcExit c1Driver).currentId = some 7 ∧
    (onProcExit c1Driver).pendingQueue = some ⟨9, "q w", 10⟩ ∧
    (onEvalTimeout (onProcExit c1Driver)).2 =
      [(7, Settle.rejected "Stockfish timeout")] ∧
    (("Engine process error: ".toList).isPrefixOf
        ("Stockfish timeout").toList) = false ∧
    (onEvalTimeout (onProcExit c1Driver)).1.currentId = some 9 ∧
    (onEvalTimeout (onProcExit c1Driver)).1.busy = true ∧
    (poolDriverExit 0 c1Pool).engines = [0, 1] ∧
    (poolDriverExit 0 c1Pool).available = [1] ∧
    (poolDriverExit 0 c1Pool).queue = [⟨20, "fq", 10⟩] := by
  refine ⟨by decide, by decide, by decide, by decide, by decide, by decide,
    by decide, by decide, by decide, by decide⟩

lemma length_filter_ne {l : List Nat} {d : Nat}
    (hmem : d ∈ l) (hnd : l.Nodup) :
    (l.filter (fun e => e ≠ d)).length + 1 = l.length := by
  induction l with
  | nil => simp at hmem
  | cons a l ih =>
    rcases List.nodup_cons.mp hnd with ⟨hal, hl⟩
    by_cases had : a = d
    · subst had
      have : l.filter (fun e => e ≠ a) = l := by
        rw [List.filter_eq_self]
        intro b hb
        simp only [decide_eq_true_eq]
        intro hba
        exact hal (hba ▸ hb)
      simp [this]
      intro b hb hba
      exact hal (hba ▸ hb)
    · have hdl : d ∈ l := by
        rcases List.mem_cons.mp hmem with h | h
        · exact absurd h.symm had
        · exact h
      have := ih hdl hl
      simp only [List.filter_cons, decide_eq_true_eq]
      rw [if_pos had]
      simp only [List.length_cons]
      omega

/-- C1 (amended): an unexpected process exit only marks the driver not
ready, leaving the in-flight and queued calls pending; the in-flight
call is rejected later by the per-evaluation timeout (with the timeout
error, not a process-failure error).  When that failed completion then
reaches the pool and the driver is not ready, the driver is permanently
removed from both the driver set and the idle set (the driver-set size
drops by exactly one), and exactly one admission-queue call, if any, is
rejected with the crash error (none when the queue is empty). -/
theorem C1_theorem :
    (∀ st : DriverState, (onProcExit st).ready = false ∧
      (onProcExit st).currentId = st.currentId ∧
      (onProcExit st).pendingQueue = st.pendingQueue) ∧
    (∀ (st : DriverState) (i : Nat), st.busy = true → st.evalTimer = some i →
      (onEvalTimeout st).2 = [(i, Settle.rejected "Stockfish timeout")]) ∧
    (∀ (d : Nat) (ps : PoolState) (q : PendingCall) (qs : List PendingCall),
      d ∈ ps.dead → d ∈ ps.engines → ps.engines.Nodup → ps.queue = q :: qs →
      (completeErr d ps).1.engines.length + 1 = ps.engines.length ∧
      d ∉ (completeErr d ps).1.engines ∧
      d ∉ (completeErr d ps).1.available ∧
      (completeErr d ps).2 =
        [(q.id, Settle.rejected "Engine crashed — no replacement available yet")] ∧
      (completeErr d ps).1.queue = qs) ∧
    (∀ (d : Nat) (ps : PoolState), d ∈ ps.dead → ps.queue = [] →
      (completeErr d ps).2 = [] ∧ d ∉ (completeErr d ps).1.engines) := by
  refine ⟨?_, ?_, ?_, ?_⟩
  · intro st
    refine ⟨rfl, rfl, rfl⟩
  · intro st i hbusy htimer
    simp [onEvalTimeout, htimer, hbusy]
  · intro d ps q qs hdead hmem hnd hq
    have heq : completeErr d ps =
        ({ ps with
           engines := ps.engines.filter (fun e => e ≠ d)
           available := ps.available.filter (fun e => e ≠ d)
           running := ps.running.filter (fun p => p.1 ≠ d)
           queue := qs },
         [(q.id, Settle.rejected "Engine crashed — no replacement available yet")]) := by
      simp [completeErr, discardOrRelease, hdead, evictAndDrainOne, hq]
    rw [heq]
    refine ⟨length_filter_ne hmem hnd, ?_, ?_, rfl, rfl⟩
    · intro hmem2
      have := (List.mem_filter.mp hmem2).2
      simp at this
    · intro hmem2
      have := (List.mem_filter.mp hmem2).2
      simp at this
  · intro d ps hdead hq
    have heq : completeErr d ps =
        ({ ps with
           engines := ps.engines.filter (fun e => e ≠ d)
           available := ps.available.filter (fun e => e ≠ d)
           running := ps.running.filter (fun p => p.1 ≠ d)
           queue := ps.queue },
         []) := by
      simp [completeErr, discardOrRelease, hdead, evictAndDrainOne, hq]
    rw [heq]
    refine ⟨rfl, ?_⟩
    intro hmem2
    have := (List.mem_filter.mp hmem2).2
    simp at this

/-- C1 witness: the amended theorem applied to the concrete crashed
driver and pool of the counterexample scenario (after the pool has
marked engine 0 dead). -/
theorem C1_witness :
    (onEvalTimeout (onProcExit c1Driver)).2 =
      [(7, Settle.rejected "Stockfish timeout")] ∧
    (completeErr 0 (poolDriverExit 0 c1Pool)).1.engines.length + 1 = 2 ∧
    (completeErr 0 (poolDriverExit 0 c1Pool)).2 =
      [(20, Settle.rejected "Engine crashed — no replacement available yet")] := by
  have h1 := C1_theorem.2.1 (onProcExit c1Driver) 7 (by decide) (by decide)
  have h3 := C1_theorem.2.2.1 0 (poolDriverExit 0 c1Pool) ⟨20, "fq", 10⟩ []
    (by decide) (by decide) (by decide) (by decide)
  exact ⟨h1, h3.1, h3.2.2.2.1⟩

/-- C8: Pool.quit rejects every admission-queue call with the pool
shutdown error and clears both the queue and the idle set; driver quit
(on a driver whose process handle exists) rejects the queued call and
the in-flight call with the driver shutdown error, and afterwards the
driver holds no queued call, no current call, and no process -- so after
the pool-level quit followed by the per-driver quits, every previously
pending or queued call has been settled and none remains. -/
theorem C8_theorem :
    (∀ ps : PoolState,
      (poolQuit ps).2 =
        ps.queue.map (fun q => (q.id, Settle.rejected "Engine pool shutting down")) ∧
      (poolQuit ps).1.queue = [] ∧ (poolQuit ps).1.available = []) ∧
    (∀ st : DriverState, st.procExists = true →
      (quitDriver st).1.pendingQueue = none ∧
      (quitDriver st).1.currentId = none ∧
      (quitDriver st).1.procExists = false ∧
      (quitDriver st).1.ready = false ∧
      (∀ c : PendingCall, st.pendingQueue = some c →
        (c.id, Settle.rejected "Engine shutting down") ∈ (quitDriver st).2) ∧
      (∀ i : Nat, st.currentId = some i →
        (i, Settle.rejected "Engine shutting down") ∈ (quitDriver st).2) ∧
      (∀ p, p ∈ (quitDriver st).2 →
        p.2 = Settle.rejected "Engine shutting down" ∧
        ((∃ c : PendingCall, st.pendingQueue = some c ∧ p.1 = c.id) ∨
         st.currentId = some p.1))) := by
  constructor
  · intro ps
    exact ⟨rfl, rfl, rfl⟩
  · intro st hproc
    have hne : ¬ st.procExists = false := by simp [hproc]
    rcases hpq : st.pendingQueue with _ | c <;>
      rcases hcur : st.currentId with _ | i <;>
      simp [quitDriver, hproc, hpq, hcur, cleanupEval]

/-- C8 witness: the shutdown theorem applied to a concrete pool holding
one queued admission call and to a concrete driver with both an
in-flight call (caller 7) and a queued call (caller 9). -/
theorem C8_witness :
    (poolQuit
        { engines := [0, 1], available := [1], queue := [⟨20, "fq", 10⟩],
          maxQueue := 10, running := [(0, 7)], dead := [] }).2 =
      [(20, Settle.rejected "Engine pool shutting down")] ∧
    (quitDriver c1Driver).1.pendingQueue = none ∧
    (quitDriver c1Driver).1.currentId = none ∧
    (9, Settle.rejected "Engine shutting down") ∈ (quitDriver c1Driver).2 ∧
    (7, Settle.rejected "Engine shutting down") ∈ (quitDriver c1Driver).2 := by
  have hp := (C8_theorem.1
    { engines := [0, 1], available := [1], queue := [⟨20, "fq", 10⟩],
      maxQueue := 10, running := [(0, 7)], dead := [] }).1
  have hd := C8_theorem.2 c1Driver (by decide)
  refine ⟨by simpa using hp, hd.1, hd.2.1, ?_, ?_⟩
  · exact hd.2.2.2.2.1 ⟨9, "q w", 10⟩ (by decide)
  · exact hd.2.2.2.2.2.1 7 (by decide)
